import Mathlib

/-!
Shallow embedding of the markdown rendering core of the `packet` repository
(`src/render/markdown.rs`), together with proofs of the specification claims.

External collaborators (the pulldown-cmark tokenizer, the typst evaluator and
compiler, the syntect highlighter and the HTML serializer) are modelled as
oracle functions carried in a context record; everything the repository itself
does is translated directly from the source.  Rust panics (`unreachable!`,
`todo!`, `expect`, out-of-bounds indexing) are modelled as a distinct
`RErr.panic` outcome, separate from the returned `RenderError` values.
-/

namespace Packet

/-- Diagnostic produced by the external typst evaluator (`SourceDiagnostic`). -/
structure SourceDiagnostic where
  message : String
deriving Repr, DecidableEq

/-- Error enum of the renderers, `RenderError` in `markdown.rs`: it has exactly
the two variants `TypstError(Vec<SourceDiagnostic>)` and `UnsupportedHtml`. -/
inductive RenderError where
  | TypstError (diags : List SourceDiagnostic)
  | UnsupportedHtml
deriving Repr, DecidableEq

/-- Rust-level outcome of running renderer code: either a `RenderError` value
returned through `Result`, or a panic (an unwind from `unreachable!`, `todo!`,
`expect` or out-of-bounds indexing). -/
inductive RErr where
  | rerr (e : RenderError)
  | panic (msg : String)
deriving Repr, DecidableEq

/-- Heading levels of pulldown-cmark (`HeadingLevel`, `H1` ... `H6`). -/
inductive HeadingLevel where
  | h1 | h2 | h3 | h4 | h5 | h6
deriving Repr, DecidableEq

/-- The `as usize` cast of a pulldown-cmark heading level: always in 1..6. -/
def HeadingLevel.toNat : HeadingLevel → Nat
  | .h1 => 1 | .h2 => 2 | .h3 => 3 | .h4 => 4 | .h5 => 5 | .h6 => 6

/-- Code block kind of pulldown-cmark (`CodeBlockKind`). -/
inductive CodeBlockKind where
  | indented
  | fenced (info : String)
deriving Repr, DecidableEq

/-- Column alignment of pulldown-cmark (`Alignment`). -/
inductive Alignment where
  | NoneAl | Left | Center | Right
deriving Repr, DecidableEq

/-- Group tags of the pulldown-cmark AST (`Tag`).  Payload fields that the
renderer never reads (heading ids and classes, link titles, image payloads)
are omitted. -/
inductive Tag where
  | paragraph
  | heading (level : HeadingLevel)
  | blockQuote (kind : Option String)
  | codeBlock (kind : CodeBlockKind)
  | htmlBlock
  | list (start : Option Nat)
  | item
  | footnoteDefinition (label : String)
  | table (alignments : List Alignment)
  | tableHead
  | tableRow
  | tableCell
  | emphasis
  | strong
  | strikethrough
  | link (dest_url : String)
  | image (dest_url : String)
  | metadataBlock
deriving Repr, DecidableEq

/-- The markup tree of `pulldown_cmark_ast` (`Tree`): a group node carrying a
tag and an ordered stream of children, or a leaf.  Spans are dropped: the
renderer only ever reads the `item` component of each `Spanned`. -/
inductive Tree where
  | group (tag : Tag) (stream : List Tree)
  | text (s : String)
  | code (s : String)
  | html (s : String)
  | inlineHtml (s : String)
  | footnoteReference (s : String)
  | softBreak
  | hardBreak
  | rule
  | taskListMarker (checked : Bool)
  | inlineMath (s : String)
  | displayMath (s : String)
deriving Repr

/-- Typst alignments as used by the renderer: `Smart::Auto` or a custom
horizontal alignment. -/
inductive TypstAlign where
  | auto | left | center | right
deriving Repr, DecidableEq

/-- Embedding of `map_align` in `markdown.rs`. -/
def map_align : Alignment → TypstAlign
  | .NoneAl => .auto
  | .Left => .left
  | .Center => .center
  | .Right => .right

/-- The typst content values the renderer constructs (`Content`).  Each
constructor records one element kind built in `render_tree`.  A table
element stores its children in order; the header child is a `tableHeader`
node (`TableChild::Header`) and each body child is a `tableCell` node
(`TableChild::Item(TableItem::Cell(..))`). -/
inductive Content where
  | sequence (children : List Content)
  | parbreak
  | heading (level : Nat) (body : Content)
  | figure (body : Content)
  | aligned (a : TypstAlign) (body : Content)
  | raw (txt : String) (lang : Option String) (block : Bool)
  | enumElem (items : List (Nat × Content))
  | listElem (items : List Content)
  | listItem (body : Content)
  | tableElem (children : List Content) (columns : Nat) (align : List TypstAlign)
  | tableHeader (cells : List Content)
  | tableCell (body : Content)
  | emph (body : Content)
  | strong (body : Content)
  | strike (body : Content)
  | link (url : String) (body : Content)
  | text (s : String)
  | space
  | linebreak
  | line
deriving Repr

/-- Evaluator result values (`typst::foundations::Value`): the renderer only
distinguishes `Value::Content` from every other variant. -/
inductive Value where
  | content (c : Content)
  | other (tag : String)

/-- Evaluation mode passed to `typst::eval::eval_string` (`EvalMode`). -/
inductive EvalMode where
  | code | markup | math
deriving Repr, DecidableEq

/-- The scope argument the renderer passes to `eval_string`: either a fresh
empty `Scope::new()` or the math module scope of the world library
(`world.library().math.scope()`). -/
inductive ScopeArg where
  | empty | mathScope
deriving Repr, DecidableEq

/-- Context of external collaborators for the content-tree renderer: the typst
evaluator (`typst::eval::eval_string` over the tracked world), the URL
validator (`typst::model::Url::new`) and the tokenizer
(`pulldown_cmark_ast::Ast::new_ext` with `CMARK_OPTIONS`). -/
structure RenderCtx where
  evalString : String → EvalMode → ScopeArg → Except (List SourceDiagnostic) Value
  urlNew : String → Option String
  ast_new_ext : String → List Tree

/-- Embedding of `Content::into_packed::<ListItem>()`: succeeds exactly on a
list item element, otherwise `unwrap` panics. -/
def intoPackedListItem : Content → Option Content
  | .listItem body => some (.listItem body)
  | _ => none

/-- Embedding of `Content::into_packed::<TableCell>()`: succeeds exactly on a
table cell element, otherwise `unwrap` panics. -/
def intoPackedTableCell : Content → Option Content
  | .tableCell body => some (.tableCell body)
  | _ => none

/-- Embedding of `render_ast_to_text`: concatenates `Text` leaves and panics
(`unreachable!("need to impl ...")`) on any other node. -/
def render_ast_to_text : List Tree → Except RErr String
  | [] => .ok ""
  | .text s :: ts => do
      let rest ← render_ast_to_text ts
      .ok (s ++ rest)
  | _ :: _ => .error (.panic "need to impl")

mutual

/-- Embedding of `TypstMarkdownRenderer::render_tree`. -/
def render_tree (ctx : RenderCtx) : Tree → Except RErr Content
  | .group tag stream =>
    match tag with
    | .paragraph => do
        let cs ← render_list ctx stream
        .ok (.sequence (.parbreak :: cs ++ [.parbreak]))
    | .heading level => do
        let cs ← render_list ctx stream
        .ok (.heading level.toNat (.sequence cs))
    | .blockQuote _ => do
        let cs ← render_list ctx stream
        .ok (.figure (.aligned .left (.sequence (.parbreak :: cs ++ [.parbreak]))))
    | .codeBlock kind => do
        let content ← render_ast_to_text stream
        let lang : Option String :=
          match kind with
          | .indented => none
          | .fenced s => if s = "" then none else some s
        .ok (.figure (.raw content lang true))
    | .htmlBlock => .error (.rerr .UnsupportedHtml)
    | .list startNum =>
      match startNum with
      | some ord => do
          let items ← render_enum_items ctx ord 0 stream
          .ok (.enumElem items)
      | none => do
          let items ← render_list_items ctx stream
          .ok (.listElem items)
    | .item => do
        let cs ← render_list ctx stream
        .ok (.listItem (.sequence cs))
    | .footnoteDefinition _ => .error (.panic "Feature is disabled")
    | .table aligns =>
      match stream with
      | [] => .error (.panic "index out of bounds")
      | .group .tableHead hstream :: rest => do
          let headerCells ← render_cell_items ctx hstream
          let bodyItems ← render_body_rows ctx rest
          .ok (.figure (.tableElem (.tableHeader headerCells :: bodyItems)
            hstream.length (aligns.map map_align)))
      | .group _ _ :: _ => .error (.panic "unreachable")
      | _ :: _ => .error (.panic "unreachable")
    | .tableHead => do
        let cells ← render_cell_items ctx stream
        .ok (.tableHeader cells)
    | .tableRow => do
        let cells ← render_cell_items ctx stream
        .ok (.tableHeader cells)
    | .tableCell => do
        let cs ← render_list ctx stream
        .ok (.tableCell (.sequence cs))
    | .emphasis => do
        let cs ← render_list ctx stream
        .ok (.emph (.sequence cs))
    | .strong => do
        let cs ← render_list ctx stream
        .ok (.strong (.sequence cs))
    | .strikethrough => do
        let cs ← render_list ctx stream
        .ok (.strike (.sequence cs))
    | .link dest =>
      match ctx.urlNew dest with
      | none => .error (.panic "Url new unwrap")
      | some u => do
          let cs ← render_list ctx stream
          .ok (.link u (.sequence cs))
    | .image _ => .error (.panic "not yet implemented")
    | .metadataBlock => .error (.panic "Feature is disabled")
  | .text s => .ok (.text s)
  | .code s => .ok (.raw s none false)
  | .html _ => .error (.rerr .UnsupportedHtml)
  | .inlineHtml _ => .error (.rerr .UnsupportedHtml)
  | .footnoteReference _ => .error (.panic "Feature is disabled")
  | .softBreak => .ok .space
  | .hardBreak => .ok .linebreak
  | .rule => .ok .line
  | .taskListMarker _ => .error (.panic "Feature is disabled")
  | .inlineMath s =>
    match ctx.evalString s .math .empty with
    | .error ds => .error (.rerr (.TypstError ds))
    | .ok (.content c) => .ok c
    | .ok (.other _) => .error (.panic "unreachable")
  | .displayMath s =>
    match ctx.evalString ("$ " ++ s.trim ++ " $") .markup .mathScope with
    | .error ds => .error (.rerr (.TypstError ds))
    | .ok (.content c) => .ok c
    | .ok (.other _) => .error (.panic "unreachable")
termination_by t => sizeOf t

/-- Sequential rendering of a stream of children, collected as in
`collect::<RenderResult<Vec<_>>>()`: the first error short-circuits. -/
def render_list (ctx : RenderCtx) : List Tree → Except RErr (List Content)
  | [] => .ok []
  | t :: ts => do
      let c ← render_tree ctx t
      let cs ← render_list ctx ts
      .ok (c :: cs)
termination_by ts => sizeOf ts

/-- Embedding of the ordered-list branch: each direct child must be an `Item`
group (`unreachable!` otherwise) and is numbered `ord + i` for zero-based
index `i`, via `EnumItem::new(..).with_number(Some(ord as usize + i))`. -/
def render_enum_items (ctx : RenderCtx) (ord i : Nat) :
    List Tree → Except RErr (List (Nat × Content))
  | [] => .ok []
  | .group .item st :: ts => do
      let cs ← render_list ctx st
      let rest ← render_enum_items ctx ord (i + 1) ts
      .ok ((ord + i, Content.sequence cs) :: rest)
  | .group _ _ :: _ => .error (.panic "unreachable")
  | _ :: _ => .error (.panic "unreachable")
termination_by ts => sizeOf ts

/-- Embedding of the unordered-list branch: each child is rendered and then
`into_packed::<ListItem>().unwrap()`-ed. -/
def render_list_items (ctx : RenderCtx) : List Tree → Except RErr (List Content)
  | [] => .ok []
  | t :: ts => do
      let c ← render_tree ctx t
      match intoPackedListItem c with
      | some itemC => do
          let rest ← render_list_items ctx ts
          .ok (itemC :: rest)
      | none => .error (.panic "into_packed unwrap")
termination_by ts => sizeOf ts

/-- Embedding of cell collection for table headers and rows: each child is
rendered and then `into_packed::<TableCell>().unwrap()`-ed. -/
def render_cell_items (ctx : RenderCtx) : List Tree → Except RErr (List Content)
  | [] => .ok []
  | t :: ts => do
      let c ← render_tree ctx t
      match intoPackedTableCell c with
      | some cell => do
          let rest ← render_cell_items ctx ts
          .ok (cell :: rest)
      | none => .error (.panic "into_packed unwrap")
termination_by ts => sizeOf ts

/-- Embedding of the body-row loop of the table branch: every remaining child
must be a `TableRow` group (`unreachable!` otherwise); its cells are appended
as table children. -/
def render_body_rows (ctx : RenderCtx) : List Tree → Except RErr (List Content)
  | [] => .ok []
  | .group .tableRow rstream :: ts => do
      let cells ← render_cell_items ctx rstream
      let rest ← render_body_rows ctx ts
      .ok (cells ++ rest)
  | .group _ _ :: _ => .error (.panic "unreachable")
  | _ :: _ => .error (.panic "unreachable")
termination_by ts => sizeOf ts

end

/-- Embedding of `TypstMarkdownRenderer::render_ast`. -/
def render_ast (ctx : RenderCtx) (ast : List Tree) : Except RErr Content := do
  let cs ← render_list ctx ast
  .ok (.sequence cs)

/-- Embedding of `TypstMarkdownRenderer::render` and the public
`render_markdown` entry point: tokenize, then render the AST. -/
def render_markdown (ctx : RenderCtx) (markdown : String) : Except RErr Content :=
  render_ast ctx (ctx.ast_new_ext markdown)

/-! The HTML stream renderer (`MarkdownRenderable::html`): a single forward
pass over the flat pulldown-cmark event stream. -/

/-- Start tags of stream events: the renderer only inspects
`Tag::CodeBlock`; every other start tag passes through. -/
inductive ETag where
  | codeBlock (kind : CodeBlockKind)
  | otherStart (name : String)
deriving Repr

/-- End tags of stream events: the renderer only inspects
`TagEnd::CodeBlock`. -/
inductive ETagEnd where
  | codeBlock
  | otherEnd (name : String)
deriving Repr

/-- The flat pulldown-cmark event stream (`Event`). -/
inductive Event where
  | start (tag : ETag)
  | endTag (tag : ETagEnd)
  | text (s : String)
  | code (s : String)
  | inlineMath (s : String)
  | displayMath (s : String)
  | html (s : String)
  | inlineHtml (s : String)
  | footnoteReference (s : String)
  | softBreak
  | hardBreak
  | rule
  | taskListMarker (checked : Bool)
deriving Repr

/-- Handle of a syntect grammar (`SyntaxReference`). -/
structure SynReference where
  name : String
deriving Repr, DecidableEq

/-- Oracle for the syntect grammar set (`SyntaxSet::load_defaults_newlines`),
with the three lookups `find_syntax_by_name`, `find_syntax_by_extension` and
`find_syntax_plain_text` used by the renderer. -/
structure SynSet where
  findSynByName : String → Option SynReference
  findSynByExtension : String → Option SynReference
  findSynPlainText : SynReference

/-- Context of external collaborators for the HTML stream renderer: the
tokenizer (`Parser::new_ext` with `CMARK_OPTIONS`), the typst compiler plus
SVG export of page 0 (`typst::compile` and `typst_svg::svg(&doc.pages[0])`),
the syntect grammar set, the classed HTML generator
(`ClassedHTMLGenerator` feeding plus `finalize`), and the HTML serializer
(`pulldown_cmark::html::push_html`). -/
structure HtmlCtx where
  parse : String → List Event
  compile : String → Except (List SourceDiagnostic) String
  synSet : SynSet
  highlight : SynReference → List String → String
  push_html : List Event → String

/-- The exact template the renderer wraps inline math in before compiling
(`format!` at the `Event::InlineMath` arm, including its literal
indentation). -/
def inline_math_template (s : String) : String :=
  "#set page(width: auto, height: auto, margin: 0em)\n                    $"
    ++ s ++ "$"

/-- The exact template the renderer wraps display math in before compiling
(`format!` at the `Event::DisplayMath` arm, including its literal
indentation). -/
def display_math_template (s : String) : String :=
  "\n                    #set page(width: auto, height: auto, margin: 0em)\n                    $ "
    ++ s ++ " $\n                    "

/-- Embedding of syntect `LinesWithEndings`: splits a string into lines, each
keeping its terminating newline; a final fragment without a newline is kept
only if nonempty. -/
def lines_with_endings (s : String) : List String :=
  match (s.splitOn "\n").reverse with
  | [] => []
  | last :: revInit =>
      (revInit.reverse.map (fun l => l ++ "\n"))
        ++ (if last = "" then [] else [last])

/-- Local mutable state of the HTML pass: the accumulated diagnostics list
(`errors`) and the active code-block accumulator (`current_code`, holding the
resolved grammar and the lines fed so far). -/
structure HState where
  errors : List SourceDiagnostic
  current_code : Option (SynReference × List String)

/-- Embedding of the `flat_map` closure of `MarkdownRenderable::html`: maps
one event to the state update and the replacement events.  The
end-without-start `expect` is the only panic site. -/
def html_step (hctx : HtmlCtx) (st : HState) : Event → Except RErr (HState × List Event)
  | .inlineMath s =>
    match hctx.compile (inline_math_template s) with
    | .ok svg => .ok (st, [.inlineHtml svg])
    | .error err => .ok ({ st with errors := st.errors ++ err }, [.text ""])
  | .displayMath s =>
    match hctx.compile (display_math_template s) with
    | .ok svg => .ok (st, [.html svg])
    | .error err => .ok ({ st with errors := st.errors ++ err }, [.text ""])
  | .start (.codeBlock kind) =>
    let lang : String :=
      match kind with
      | .indented => ""
      | .fenced s => s
    let syn :=
      ((hctx.synSet.findSynByName lang).orElse
        (fun _ => hctx.synSet.findSynByExtension lang)).getD
        hctx.synSet.findSynPlainText
    .ok ({ st with current_code := some (syn, []) }, [])
  | .text t =>
    match st.current_code with
    | some (syn, fed) =>
        .ok ({ st with current_code := some (syn, fed ++ lines_with_endings t) }, [])
    | none => .ok (st, [.text t])
  | .endTag .codeBlock =>
    match st.current_code with
    | some (syn, fed) =>
        .ok ({ st with current_code := none },
          [.html ("<pre>" ++ hctx.highlight syn fed ++ "</pre>")])
    | none => .error (.panic "Cant have end without start")
  | e => .ok (st, [e])

/-- Driving the whole event stream through `html_step`, accumulating the
transformed events in order (the lazy `flat_map` iterator drained by
`push_html`). -/
def html_run (hctx : HtmlCtx) (st : HState) : List Event → Except RErr (HState × List Event)
  | [] => .ok (st, [])
  | e :: es => do
      let (st1, out1) ← html_step hctx st e
      let (st2, out2) ← html_run hctx st1 es
      .ok (st2, out1 ++ out2)

/-- The `MarkdownRenderable` newtype over `String`. -/
structure MarkdownRenderable where
  raw : String
deriving Repr, DecidableEq

/-- Embedding of `MarkdownRenderable::from_raw`. -/
def MarkdownRenderable.from_raw (raw : String) : MarkdownRenderable :=
  ⟨raw⟩

/-- Embedding of the `From<String>` and `From<&str>` impls, which both wrap
the string unchanged. -/
def MarkdownRenderable.fromString (value : String) : MarkdownRenderable :=
  ⟨value⟩

/-- Embedding of the `FromStr` impl, whose error type is `Infallible`
(modelled by `Empty`): `Ok(Self::from(s))`. -/
def MarkdownRenderable.from_str (s : String) : Except Empty MarkdownRenderable :=
  .ok (MarkdownRenderable.fromString s)

/-- Embedding of `MarkdownRenderable::html`: parse the raw text, run the
stream pass, then return the serialized HTML exactly when no diagnostics
accumulated, and `Err(TypstError(errors))` otherwise. -/
def MarkdownRenderable.html (m : MarkdownRenderable) (hctx : HtmlCtx) :
    Except RErr String := do
  let (st, out) ← html_run hctx { errors := [], current_code := none } (hctx.parse m.raw)
  if st.errors = [] then
    .ok (hctx.push_html out)
  else
    .error (.rerr (.TypstError st.errors))

/-- Embedding of `MarkdownRenderable::content`. -/
def MarkdownRenderable.content (m : MarkdownRenderable) (ctx : RenderCtx) :
    Except RErr Content :=
  render_markdown ctx m.raw

/-- Sequential numbering from a start offset: `numberFrom n [c0, c1, c2, ...]`
pairs item `ci` with number `n + i`. -/
def numberFrom (n : Nat) : List Content → List (Nat × Content)
  | [] => []
  | c :: cs => (n, c) :: numberFrom (n + 1) cs

/-- Concrete evaluator context used by witnesses: the evaluator fails on
every expression. -/
def testRenderCtx : RenderCtx where
  evalString := fun _ _ _ => .error [{ message := "evaluation failed" }]
  urlNew := fun u => some u
  ast_new_ext := fun _ => []

/-- Concrete evaluator context used by witnesses: the evaluator succeeds on
every expression with a fixed content value. -/
def evalOkCtx : RenderCtx where
  evalString := fun _ _ _ => .ok (.content (.text "OK"))
  urlNew := fun u => some u
  ast_new_ext := fun _ => []

/-- Concrete grammar-set oracle used by witnesses: it knows the grammar name
`Rust` and the extension `rs`, and nothing else. -/
def testSynSet : SynSet where
  findSynByName := fun n => if n = "Rust" then some ⟨"Rust"⟩ else none
  findSynByExtension := fun e => if e = "rs" then some ⟨"Rust"⟩ else none
  findSynPlainText := ⟨"Plain Text"⟩

/-- Concrete HTML serialization oracle used by witnesses: concatenates the
text and HTML payloads of the events. -/
def testPushHtml (es : List Event) : String :=
  String.join (es.map fun e =>
    match e with
    | .text s => s
    | .html s => s
    | .inlineHtml s => s
    | .code s => s
    | _ => "")

/-- HTML-renderer context whose tokenizer yields a single raw HTML event. -/
def htmlCtxRawHtml : HtmlCtx where
  parse := fun s => [.html s]
  compile := fun _ => .error [{ message := "compile failed" }]
  synSet := testSynSet
  highlight := fun syn ls => syn.name ++ ":" ++ String.join ls
  push_html := testPushHtml

/-- HTML-renderer context whose tokenizer yields a failing inline math span
followed by ordinary text, and whose compiler always fails. -/
def htmlCtxMathFail : HtmlCtx where
  parse := fun _ => [.inlineMath "x", .text "after"]
  compile := fun _ => .error [{ message := "bad math" }]
  synSet := testSynSet
  highlight := fun syn ls => syn.name ++ ":" ++ String.join ls
  push_html := testPushHtml

/-- HTML-renderer context whose tokenizer yields a fenced code block tagged
with a language unknown to the grammar set. -/
def htmlCtxUnknownLang : HtmlCtx where
  parse := fun _ => [.start (.codeBlock (.fenced "zzz")), .text "let x\n", .endTag .codeBlock]
  compile := fun _ => .error [{ message := "compile failed" }]
  synSet := testSynSet
  highlight := fun syn ls => syn.name ++ ":" ++ String.join ls
  push_html := testPushHtml

/-! Theorems for the specification claims.  The two bind-reduction lemmas
below let `simp` evaluate the `do` blocks of the renderers. -/

@[simp]
theorem except_bind_ok {ε α β : Type} (a : α) (f : α → Except ε β) :
    (Except.ok a >>= f : Except ε β) = f a := rfl

@[simp]
theorem except_bind_error {ε α β : Type} (e : ε) (f : α → Except ε β) :
    (Except.error e >>= f : Except ε β) = .error e := rfl

/-- Claim C10: constructing a `MarkdownRenderable` never fails and is a
lossless round trip: for every string `s`, `from_raw(s).raw() == s`, and
likewise for the `From<String>`/`From<&str>` constructors and the infallible
`FromStr` constructor. -/
theorem c10_from_raw_roundtrip (s : String) :
    (MarkdownRenderable.from_raw s).raw = s
    ∧ (MarkdownRenderable.fromString s).raw = s
    ∧ MarkdownRenderable.from_str s = .ok (MarkdownRenderable.from_raw s)
    ∧ ∀ e : Empty, MarkdownRenderable.from_str s ≠ .error e := by
  exact ⟨rfl, rfl, rfl, fun e => e.elim⟩

/-- Claim C2 evaluation: on any `Image` group the content-tree renderer does
not surface a recoverable result: it panics via `todo!` (panic message
`not yet implemented`), for every destination and child stream. -/
theorem c2_image_rendering_panics (ctx : RenderCtx) (dest : String) (stream : List Tree) :
    render_tree ctx (.group (.image dest) stream)
      = .error (.panic "not yet implemented") := by
  simp [render_tree]

/-- Claim C1 evaluation: a `Table` group with no children makes the
content-tree renderer panic at `things.remove(0)` (out-of-bounds), a `Table`
group whose first child is not a `TableHead` group panics at `unreachable!`,
and the `RenderError` enum has no `MalformedTable` variant at all — its only
variants are `TypstError` and `UnsupportedHtml`. -/
theorem c1_table_destructuring_panics (ctx : RenderCtx) (aligns : List Alignment) :
    render_tree ctx (.group (.table aligns) []) = .error (.panic "index out of bounds")
    ∧ (∀ s rest, render_tree ctx (.group (.table aligns) (.text s :: rest))
        = .error (.panic "unreachable"))
    ∧ (∀ stream rest,
        render_tree ctx (.group (.table aligns) (.group .paragraph stream :: rest))
          = .error (.panic "unreachable"))
    ∧ (∀ e : RenderError, (∃ ds, e = .TypstError ds) ∨ e = .UnsupportedHtml) := by
  refine ⟨by simp [render_tree], fun s rest => by simp [render_tree],
    fun stream rest => by simp [render_tree], fun e => ?_⟩
  cases e with
  | TypstError ds => exact .inl ⟨ds, rfl⟩
  | UnsupportedHtml => exact .inr rfl

/-- Claim C7: on a `DisplayMath` node the content-tree renderer trims the
expression, wraps it as `$ ... $`, evaluates it in markup mode with the math
module scope, and maps an evaluator failure to `TypstError` carrying the
diagnostics (and an evaluated content value to success). -/
theorem c7_display_math_evaluation (ctx : RenderCtx) (s : String) :
    (∀ ds, ctx.evalString ("$ " ++ s.trim ++ " $") .markup .mathScope = .error ds →
        render_tree ctx (.displayMath s) = .error (.rerr (.TypstError ds)))
    ∧ (∀ c, ctx.evalString ("$ " ++ s.trim ++ " $") .markup .mathScope = .ok (.content c) →
        render_tree ctx (.displayMath s) = .ok c) := by
  constructor
  · intro ds h
    simp [render_tree, h]
  · intro c h
    simp [render_tree, h]

/-- Witness for C7 at a concrete evaluator: the display expression with
surrounding whitespace is trimmed, wrapped and evaluated (success case), and
a failing expression yields `TypstError` with the diagnostics. -/
theorem c7_display_math_evaluation_witness :
    render_tree evalOkCtx (.displayMath " ok ") = .ok (.text "OK")
    ∧ render_tree testRenderCtx (.displayMath "bad")
        = .error (.rerr (.TypstError [{ message := "evaluation failed" }])) :=
  ⟨(c7_display_math_evaluation evalOkCtx " ok ").2 (.text "OK") rfl,
   (c7_display_math_evaluation testRenderCtx "bad").1 _ rfl⟩

/-- Claim C5: the content-tree renderer rejects raw HTML (block node, inline
node, and `HtmlBlock` group) with `UnsupportedHtml`, while the HTML stream
renderer passes raw HTML events through verbatim and succeeds. -/
theorem c5_raw_html_asymmetry (ctx : RenderCtx) (hctx : HtmlCtx) (s : String) :
    render_tree ctx (.html s) = .error (.rerr .UnsupportedHtml)
    ∧ render_tree ctx (.inlineHtml s) = .error (.rerr .UnsupportedHtml)
    ∧ (∀ stream, render_tree ctx (.group .htmlBlock stream)
        = .error (.rerr .UnsupportedHtml))
    ∧ (∀ st, html_step hctx st (.html s) = .ok (st, [.html s]))
    ∧ (∀ st, html_step hctx st (.inlineHtml s) = .ok (st, [.inlineHtml s]))
    ∧ (∀ m : MarkdownRenderable, hctx.parse m.raw = [.html s] →
        m.html hctx = .ok (hctx.push_html [.html s])) := by
  refine ⟨by simp [render_tree], by simp [render_tree],
    fun stream => by simp [render_tree],
    fun st => by simp [html_step],
    fun st => by simp [html_step], fun m hp => ?_⟩
  simp [MarkdownRenderable.html, hp, html_run, html_step]

/-- Witness for C5: on the concrete input `<b>x</b>` the content-tree
renderer fails with `UnsupportedHtml` while the HTML stream renderer passes
the raw HTML through and succeeds. -/
theorem c5_raw_html_asymmetry_witness :
    render_tree testRenderCtx (.html "<b>x</b>") = .error (.rerr .UnsupportedHtml)
    ∧ MarkdownRenderable.html ⟨"<b>x</b>"⟩ htmlCtxRawHtml
        = .ok (htmlCtxRawHtml.push_html [.html "<b>x</b>"]) :=
  ⟨(c5_raw_html_asymmetry testRenderCtx htmlCtxRawHtml "<b>x</b>").1,
   (c5_raw_html_asymmetry testRenderCtx htmlCtxRawHtml "<b>x</b>").2.2.2.2.2
     ⟨"<b>x</b>"⟩ rfl⟩

/-- Rendering a stream short-circuits: if some prefix renders successfully
and the next node fails, the whole collection fails with that error, no
matter what follows. -/
theorem render_list_append_error (ctx : RenderCtx) (pre : List Tree) (cs : List Content)
    (t : Tree) (post : List Tree) (e : RErr)
    (hpre : render_list ctx pre = .ok cs) (ht : render_tree ctx t = .error e) :
    render_list ctx (pre ++ t :: post) = .error e := by
  induction pre generalizing cs with
  | nil => simp [render_list, ht]
  | cons p ps ih =>
      cases hp : render_tree ctx p with
      | error e2 => simp [render_list, hp] at hpre
      | ok c =>
          cases hps : render_list ctx ps with
          | error e2 => simp [render_list, hp, hps] at hpre
          | ok cs2 => simp [render_list, hp, hps, ih cs2 hps]

/-- Claim C4: the content-tree renderer is fail-fast.  Traversal is
depth-first left-to-right: if every tree before position `i` renders
successfully and the tree at position `i` fails with error `e`, the whole
`render_ast` call returns exactly `e`, whatever trees follow. -/
theorem c4_render_fail_fast (ctx : RenderCtx) (pre : List Tree) (cs : List Content)
    (t : Tree) (post : List Tree) (e : RErr)
    (hpre : render_list ctx pre = .ok cs) (ht : render_tree ctx t = .error e) :
    render_ast ctx (pre ++ t :: post) = .error e := by
  simp [render_ast, render_list_append_error ctx pre cs t post e hpre ht]

/-- Witness for C4: a successful text node, then an unsupported HTML node,
then a math node that would also fail; the render returns the first error. -/
theorem c4_render_fail_fast_witness :
    render_ast testRenderCtx ([.text "a"] ++ .html "x" :: [.displayMath "bad"])
      = .error (.rerr .UnsupportedHtml) :=
  c4_render_fail_fast testRenderCtx [.text "a"] [.text "a"] (.html "x")
    [.displayMath "bad"] (.rerr .UnsupportedHtml)
    (by simp [render_list, render_tree]) (by simp [render_tree])

/-- Indexing `numberFrom`: the pair at index `k` carries number `n + k`. -/
theorem numberFrom_getElem? (n k : Nat) (cs : List Content) :
    (numberFrom n cs)[k]? = (cs[k]?).map (fun c => (n + k, c)) := by
  induction cs generalizing n k with
  | nil => simp [numberFrom]
  | cons c cs ih =>
      cases k with
      | zero => simp [numberFrom]
      | succ k =>
          have harith : n + 1 + k = n + (k + 1) := by omega
          simp [numberFrom, ih (n + 1) k, harith]

/-- The ordered-list item loop numbers the children `ord + i`, `ord + i + 1`,
... when every item body renders successfully. -/
theorem render_enum_items_eq (ctx : RenderCtx) (ord : Nat) (streams : List (List Tree))
    (bodies : List Content) (h : List.mapM' (render_ast ctx) streams = .ok bodies) :
    ∀ i, render_enum_items ctx ord i (streams.map (fun st => .group .item st))
      = .ok (numberFrom (ord + i) bodies) := by
  induction streams generalizing bodies with
  | nil =>
      intro i
      simp only [List.mapM'] at h
      cases h
      simp [render_enum_items, numberFrom]
  | cons st sts ih =>
      intro i
      simp only [List.mapM'] at h
      cases hst : render_ast ctx st with
      | error e => simp [hst] at h
      | ok b =>
          cases hsts : List.mapM' (render_ast ctx) sts with
          | error e => simp [hst, hsts] at h
          | ok bs =>
              simp only [hst, hsts, except_bind_ok] at h
              have hb : bodies = b :: bs := by
                cases h; rfl
              subst hb
              cases hcs : render_list ctx st with
              | error e => simp [render_ast, hcs] at hst
              | ok cs =>
                  have hbseq : Content.sequence cs = b := by
                    simp [render_ast, hcs] at hst
                    exact hst
                  simp [render_enum_items, hcs, ih bs hsts (i + 1), hbseq,
                    numberFrom, Nat.add_assoc]

/-- Claim C6: an ordered `List` group with start offset `s` assigns item
number `s + i` to the direct `Item` child at zero-based index `i`, and a
nested ordered list inside an item is numbered from its own declared start,
independently of the outer numbering. -/
theorem c6_ordered_list_numbering (ctx : RenderCtx) (s : Nat)
    (streams : List (List Tree)) (bodies : List Content)
    (h : streams.mapM (render_ast ctx) = .ok bodies) :
    render_tree ctx (.group (.list (some s)) (streams.map (fun st => .group .item st)))
      = .ok (.enumElem (numberFrom s bodies))
    ∧ (∀ k, (numberFrom s bodies)[k]? = (bodies[k]?).map (fun c => (s + k, c)))
    ∧ (∀ (b : Nat) (inner : List (List Tree)) (ibodies : List Content),
        inner.mapM (render_ast ctx) = .ok ibodies →
        render_tree ctx (.group (.list (some s))
            [.group .item [.group (.list (some b)) (inner.map (fun st => .group .item st))]])
          = .ok (.enumElem (numberFrom s [.sequence [.enumElem (numberFrom b ibodies)]]))) := by
  have main : ∀ (s2 : Nat) (sts : List (List Tree)) (bs : List Content),
      sts.mapM (render_ast ctx) = .ok bs →
      render_tree ctx (.group (.list (some s2)) (sts.map (fun st => .group .item st)))
        = .ok (.enumElem (numberFrom s2 bs)) := by
    intro s2 sts bs hbs
    rw [← List.mapM'_eq_mapM] at hbs
    have he := render_enum_items_eq ctx s2 sts bs hbs 0
    simp [render_tree, he]
  refine ⟨main s streams bodies h, fun k => numberFrom_getElem? s k bodies, ?_⟩
  intro b inner ibodies hinner
  have hinnerTree := main b inner ibodies hinner
  have houter : ([[Tree.group (.list (some b)) (inner.map (fun st => .group .item st))]] :
        List (List Tree)).mapM (render_ast ctx)
      = .ok [.sequence [.enumElem (numberFrom b ibodies)]] := by
    rw [← List.mapM'_eq_mapM]
    simp [List.mapM', render_ast, render_list, hinnerTree]
  have := main s [[Tree.group (.list (some b)) (inner.map (fun st => .group .item st))]]
    [.sequence [.enumElem (numberFrom b ibodies)]] houter
  simpa using this

/-- Witness for C6: a concrete ordered list starting at 3 with three items
numbered 3, 4, 5. -/
theorem c6_ordered_list_numbering_witness :
    render_tree testRenderCtx (.group (.list (some 3))
        [.group .item [.text "a"], .group .item [.text "b"], .group .item [.text "c"]])
      = .ok (.enumElem [(3, .sequence [.text "a"]), (4, .sequence [.text "b"]),
          (5, .sequence [.text "c"])]) := by
  have h := (c6_ordered_list_numbering testRenderCtx 3
      [[.text "a"], [.text "b"], [.text "c"]]
      [.sequence [.text "a"], .sequence [.text "b"], .sequence [.text "c"]]
      (by rw [← List.mapM'_eq_mapM]
          simp [List.mapM', render_ast, render_list, render_tree])).1
  simpa [numberFrom] using h

/-- The event pass never aborts early: running a concatenation of streams is
running the first, then the second from the resulting state, with the
outputs concatenated. -/
theorem html_run_append (hctx : HtmlCtx) (st : HState) (es1 es2 : List Event) :
    html_run hctx st (es1 ++ es2) = (do
      let (st1, out1) ← html_run hctx st es1
      let (st2, out2) ← html_run hctx st1 es2
      .ok (st2, out1 ++ out2)) := by
  induction es1 generalizing st with
  | nil =>
      cases hr : html_run hctx st es2 with
      | error e => simp [html_run, hr]
      | ok p => simp [html_run, hr]
  | cons e es ih =>
      cases hs : html_step hctx st e with
      | error e2 => simp [html_run, hs]
      | ok p =>
          obtain ⟨st1, out1⟩ := p
          simp only [List.cons_append, html_run, hs, except_bind_ok, List.append_eq]
          rw [ih st1]
          cases h1 : html_run hctx st1 es with
          | error e2 => simp [h1]
          | ok q =>
              obtain ⟨st2, out2⟩ := q
              simp only [h1, except_bind_ok]
              cases h2 : html_run hctx st2 es2 with
              | error e2 => simp [h2]
              | ok r => simp [h2, List.append_assoc]

/-- Claim C3: in the HTML stream renderer a failed math evaluation is not
fatal: the failing span becomes an empty text placeholder and its
diagnostics are appended to the accumulating list; the pass continues to
the end of the stream; and the call returns the serialized HTML exactly
when the accumulated diagnostic list is empty at the end, otherwise an
error carrying all accumulated diagnostics. -/
theorem c3_html_collect_all (hctx : HtmlCtx) :
    (∀ (st : HState) (s : String) (ds : List SourceDiagnostic),
        hctx.compile (inline_math_template s) = .error ds →
        html_step hctx st (.inlineMath s)
          = .ok ({ st with errors := st.errors ++ ds }, [.text ""]))
    ∧ (∀ (st : HState) (s : String) (ds : List SourceDiagnostic),
        hctx.compile (display_math_template s) = .error ds →
        html_step hctx st (.displayMath s)
          = .ok ({ st with errors := st.errors ++ ds }, [.text ""]))
    ∧ (∀ st es1 es2, html_run hctx st (es1 ++ es2) = (do
        let (st1, out1) ← html_run hctx st es1
        let (st2, out2) ← html_run hctx st1 es2
        .ok (st2, out1 ++ out2)))
    ∧ (∀ (m : MarkdownRenderable) (stOut : HState) (out : List Event),
        html_run hctx { errors := [], current_code := none } (hctx.parse m.raw)
          = .ok (stOut, out) →
        (m.html hctx = .ok (hctx.push_html out) ↔ stOut.errors = [])
        ∧ (stOut.errors ≠ [] →
            m.html hctx = .error (.rerr (.TypstError stOut.errors)))) := by
  refine ⟨fun st s ds h => by simp [html_step, h],
    fun st s ds h => by simp [html_step, h],
    html_run_append hctx, fun m stOut out hrun => ?_⟩
  by_cases he : stOut.errors = []
  · exact ⟨by simp [MarkdownRenderable.html, hrun, he], fun hne => absurd he hne⟩
  · exact ⟨by simp [MarkdownRenderable.html, hrun, he],
      fun _ => by simp [MarkdownRenderable.html, hrun, he]⟩

/-- Witness for C3: a failing inline math span followed by ordinary text; the
pass reaches the end (the trailing text is kept) and the call returns an
error carrying the accumulated diagnostics. -/
theorem c3_html_collect_all_witness :
    MarkdownRenderable.html ⟨"$x$ after"⟩ htmlCtxMathFail
      = .error (.rerr (.TypstError [{ message := "bad math" }])) := by
  have h := (c3_html_collect_all htmlCtxMathFail).2.2.2 ⟨"$x$ after"⟩
      { errors := [{ message := "bad math" }], current_code := none }
      [.text "", .text "after"]
      (by simp [htmlCtxMathFail, html_run, html_step])
  exact h.2 (by simp)

/-- Claim C8: the highlighter for a code fence is resolved from the language
tag first by grammar name, then by file extension, then falls back to plain
text; a fence with an unknown language is highlighted as plain text and the
render succeeds. -/
theorem c8_code_fence_fallback (hctx : HtmlCtx) (lang : String) (st : HState) :
    (∀ syn, hctx.synSet.findSynByName lang = some syn →
        html_step hctx st (.start (.codeBlock (.fenced lang)))
          = .ok ({ st with current_code := some (syn, []) }, []))
    ∧ (∀ syn, hctx.synSet.findSynByName lang = none →
        hctx.synSet.findSynByExtension lang = some syn →
        html_step hctx st (.start (.codeBlock (.fenced lang)))
          = .ok ({ st with current_code := some (syn, []) }, []))
    ∧ (hctx.synSet.findSynByName lang = none →
        hctx.synSet.findSynByExtension lang = none →
        html_step hctx st (.start (.codeBlock (.fenced lang)))
          = .ok ({ st with current_code := some (hctx.synSet.findSynPlainText, []) }, []))
    ∧ (∀ (t : String) (m : MarkdownRenderable),
        hctx.synSet.findSynByName lang = none →
        hctx.synSet.findSynByExtension lang = none →
        hctx.parse m.raw
          = [.start (.codeBlock (.fenced lang)), .text t, .endTag .codeBlock] →
        m.html hctx = .ok (hctx.push_html
          [.html ("<pre>" ++ hctx.highlight hctx.synSet.findSynPlainText
              (lines_with_endings t) ++ "</pre>")])) := by
  refine ⟨fun syn h => by simp [html_step, h, Option.orElse],
    fun syn hn he => by simp [html_step, hn, he, Option.orElse],
    fun hn he => by simp [html_step, hn, he, Option.orElse],
    fun t m hn he hp => ?_⟩
  simp [MarkdownRenderable.html, hp, html_run, html_step, hn, he, Option.orElse]

/-- Witness for C8: a fence tagged `zzz`, unknown to the grammar set, is
highlighted with the plain-text grammar and the render succeeds. -/
theorem c8_code_fence_fallback_witness :
    MarkdownRenderable.html ⟨"fence"⟩ htmlCtxUnknownLang
      = .ok (htmlCtxUnknownLang.push_html
          [.html ("<pre>" ++ htmlCtxUnknownLang.highlight
              htmlCtxUnknownLang.synSet.findSynPlainText
              (lines_with_endings "let x\n") ++ "</pre>")]) :=
  (c8_code_fence_fallback htmlCtxUnknownLang "zzz"
      { errors := [], current_code := none }).2.2.2
    "let x\n" ⟨"fence"⟩ rfl rfl rfl

/-- Claim C9: both renderers are deterministic.  Each render result is a
pure function of the input text and the supplied evaluation context: two
contexts that agree pointwise on every oracle yield identical output (so
repeated calls with identical input and context are byte-identical). -/
theorem c9_deterministic :
    (∀ (c1 c2 : RenderCtx),
        (∀ s m sc, c1.evalString s m sc = c2.evalString s m sc) →
        (∀ u, c1.urlNew u = c2.urlNew u) →
        (∀ s, c1.ast_new_ext s = c2.ast_new_ext s) →
        ∀ md, render_markdown c1 md = render_markdown c2 md)
    ∧ (∀ (h1 h2 : HtmlCtx),
        (∀ s, h1.parse s = h2.parse s) →
        (∀ s, h1.compile s = h2.compile s) →
        (∀ l, h1.synSet.findSynByName l = h2.synSet.findSynByName l) →
        (∀ l, h1.synSet.findSynByExtension l = h2.synSet.findSynByExtension l) →
        h1.synSet.findSynPlainText = h2.synSet.findSynPlainText →
        (∀ syn ls, h1.highlight syn ls = h2.highlight syn ls) →
        (∀ es, h1.push_html es = h2.push_html es) →
        ∀ m : MarkdownRenderable, m.html h1 = m.html h2) := by
  constructor
  · intro c1 c2 he hu ha md
    have hc : c1 = c2 := by
      obtain ⟨e1, u1, a1⟩ := c1
      obtain ⟨e2, u2, a2⟩ := c2
      simp only [RenderCtx.mk.injEq]
      exact ⟨funext fun s => funext fun m => funext fun sc => he s m sc,
        funext hu, funext ha⟩
    rw [hc]
  · intro h1 h2 hp hc hn he hpt hh hph m
    obtain ⟨p1, c1, ⟨n1, e1, pt1⟩, hl1, ph1⟩ := h1
    obtain ⟨p2, c2, ⟨n2, e2, pt2⟩, hl2, ph2⟩ := h2
    have hctxEq : (⟨p1, c1, ⟨n1, e1, pt1⟩, hl1, ph1⟩ : HtmlCtx)
        = ⟨p2, c2, ⟨n2, e2, pt2⟩, hl2, ph2⟩ := by
      simp only [HtmlCtx.mk.injEq, SynSet.mk.injEq]
      exact ⟨funext hp, funext hc, ⟨funext hn, funext he, hpt⟩,
        funext fun syn => funext fun ls => hh syn ls, funext hph⟩
    rw [hctxEq]

/-- Witness for C9: the determinism theorem applied at concrete contexts and
inputs. -/
theorem c9_deterministic_witness :
    render_markdown testRenderCtx "# hi" = render_markdown testRenderCtx "# hi"
    ∧ MarkdownRenderable.html ⟨"$x$ after"⟩ htmlCtxMathFail
        = MarkdownRenderable.html ⟨"$x$ after"⟩ htmlCtxMathFail :=
  ⟨c9_deterministic.1 testRenderCtx testRenderCtx (fun _ _ _ => rfl) (fun _ => rfl)
      (fun _ => rfl) "# hi",
   c9_deterministic.2 htmlCtxMathFail htmlCtxMathFail (fun _ => rfl) (fun _ => rfl)
      (fun _ => rfl) (fun _ => rfl) rfl (fun _ _ => rfl) (fun _ => rfl) ⟨"$x$ after"⟩⟩

end Packet
